import Mathlib

/-!
Verification of the Curves3D program (src/Curves3D.cpp).

The program defines a value type `Vec3`, an abstract curve interface with
three concrete variants (`Circle`, `Ellipse`, `Helix`), and a pipeline in
`main` that filters a heterogeneous list of curves down to the circles,
sorts them by radius with `std::sort`, and sums their radii.

Modelling decisions:
* C++ `double` arithmetic is embedded as exact real arithmetic over `ℝ`;
  `M_PI` becomes `Real.pi`.
* Constructors clamp exactly as the source does
  (`radius > 0 ? radius : 1.0`).
* A `shared_ptr` to a curve object is modelled as the object's value
  together with an object identity tag `oid : ℕ`, since two distinct
  heap objects with equal field values are distinguishable in C++.
* `std::sort` is modelled relationally: the C++ standard guarantees only
  that the result is a permutation of the input that is sorted with
  respect to the comparator; the order of equivalent elements is
  unspecified.  `stdSortResult l l'` holds iff `l'` is an admissible
  result of `std::sort` applied to `l` with the radius comparator.
-/

open Real

namespace Curves3D

noncomputable section

/-- Models `struct Vec3 { double x, y, z; }`. -/
structure Vec3 where
  x : ℝ
  y : ℝ
  z : ℝ

/-- Euclidean dot product on `Vec3` (mathematical apparatus, not source code). -/
def Vec3.dot (a b : Vec3) : ℝ :=
  a.x * b.x + a.y * b.y + a.z * b.z

/-- Euclidean norm on `Vec3` (mathematical apparatus, not source code). -/
def Vec3.norm (a : Vec3) : ℝ :=
  Real.sqrt (a.dot a)

/-- Models `class Circle`: stores the clamped radius `r`. -/
structure Circle where
  r : ℝ

/-- Models the constructor `Circle::Circle(double radius) : r(radius > 0 ? radius : 1.0)`. -/
def Circle.make (radius : ℝ) : Circle :=
  ⟨if radius > 0 then radius else 1⟩

/-- Models `double Circle::getRadius() const`, which returns the stored `r`. -/
def Circle.getRadius (c : Circle) : ℝ := c.r

/-- Models `Circle::getPoint`, returning `(r cos t, r sin t, 0)`. -/
def Circle.getPoint (c : Circle) (t : ℝ) : Vec3 :=
  ⟨c.r * Real.cos t, c.r * Real.sin t, 0⟩

/-- Models `Circle::getDerivative`, returning `(-r sin t, r cos t, 0)`. -/
def Circle.getDerivative (c : Circle) (t : ℝ) : Vec3 :=
  ⟨-c.r * Real.sin t, c.r * Real.cos t, 0⟩

/-- Models `class Ellipse`: stores the clamped semi-axes `rx`, `ry`. -/
structure Ellipse where
  rx : ℝ
  ry : ℝ

/-- Models the constructor `Ellipse::Ellipse`, clamping each axis independently. -/
def Ellipse.make (rx ry : ℝ) : Ellipse :=
  ⟨if rx > 0 then rx else 1, if ry > 0 then ry else 1⟩

/-- Models `Ellipse::getPoint`, returning `(rx cos t, ry sin t, 0)`. -/
def Ellipse.getPoint (e : Ellipse) (t : ℝ) : Vec3 :=
  ⟨e.rx * Real.cos t, e.ry * Real.sin t, 0⟩

/-- Models `Ellipse::getDerivative`, returning `(-rx sin t, ry cos t, 0)`. -/
def Ellipse.getDerivative (e : Ellipse) (t : ℝ) : Vec3 :=
  ⟨-e.rx * Real.sin t, e.ry * Real.cos t, 0⟩

/-- Models `class Helix`: stores the clamped radius `r` and the unvalidated `step`. -/
structure Helix where
  r : ℝ
  step : ℝ

/-- Models the constructor `Helix::Helix`: the radius is clamped, the step is stored as given. -/
def Helix.make (radius step : ℝ) : Helix :=
  ⟨if radius > 0 then radius else 1, step⟩

/-- Models `Helix::getPoint`, returning `(r cos t, r sin t, step t / 2 pi)`. -/
def Helix.getPoint (h : Helix) (t : ℝ) : Vec3 :=
  ⟨h.r * Real.cos t, h.r * Real.sin t, h.step * t / (2 * Real.pi)⟩

/-- Models `Helix::getDerivative`, returning `(-r sin t, r cos t, step / 2 pi)`. -/
def Helix.getDerivative (h : Helix) (t : ℝ) : Vec3 :=
  ⟨-h.r * Real.sin t, h.r * Real.cos t, h.step / (2 * Real.pi)⟩

/-- The closed set of runtime variants behind `Curve*`. -/
inductive Curve where
  | circle (c : Circle)
  | ellipse (e : Ellipse)
  | helix (h : Helix)

/-- Models a `std::shared_ptr<Curve>`: the pointee value plus an object identity. -/
structure CurvePtr where
  oid : ℕ
  val : Curve

/-- Models a `std::shared_ptr<Circle>`: the pointee value plus an object identity. -/
structure CirclePtr where
  oid : ℕ
  circle : Circle

/-- Models `std::dynamic_pointer_cast<Circle>(c)`: succeeds exactly when the
runtime variant is `Circle`, yielding a pointer to the same object. -/
def dynCastCircle (p : CurvePtr) : Option CirclePtr :=
  match p.val with
  | .circle c => some ⟨p.oid, c⟩
  | .ellipse _ => none
  | .helix _ => none

/-- The filter loop of `main` (lines 109-114): start from an empty vector and
`push_back` every successful `dynamic_pointer_cast<Circle>` in order. -/
def filterCircles (curves : List CurvePtr) : List CirclePtr :=
  curves.foldl
    (fun circles p =>
      match dynCastCircle p with
      | some cp => circles ++ [cp]
      | none => circles)
    []

/-- The comparator passed to `std::sort` (lines 117-120):
`a->getRadius() < b->getRadius()`. -/
def radiusLt (a b : CirclePtr) : Prop :=
  a.circle.getRadius < b.circle.getRadius

/-- Admissible results of `std::sort(circles.begin(), circles.end(), radiusLt)`:
the C++ standard guarantees a permutation of the input that is sorted with
respect to the comparator (no adjacent pair `a, b` with `radiusLt b a`); the
order of elements that compare equivalent is unspecified. -/
def stdSortResult (l l' : List CirclePtr) : Prop :=
  l'.Perm l ∧ l'.Chain' (fun a b => ¬ radiusLt b a)

/-- The summation loop of `main` (lines 128-129):
`double sum = 0.0; for (c : circles) sum += c->getRadius();`. -/
def sumRadii (l : List CirclePtr) : ℝ :=
  l.foldl (fun sum c => sum + c.circle.getRadius) 0


/-! ### Helper lemmas -/

/-- The stored radius of any constructed circle is positive. -/
lemma Circle.make_r_pos (radius : ℝ) : 0 < (Circle.make radius).r := by
  unfold Circle.make
  split
  · assumption
  · exact one_pos

/-- Unfolding the filter loop with an arbitrary accumulator. -/
lemma filterCircles_loop (l : List CurvePtr) (acc : List CirclePtr) :
    l.foldl
      (fun circles p =>
        match dynCastCircle p with
        | some cp => circles ++ [cp]
        | none => circles)
      acc = acc ++ l.filterMap dynCastCircle := by
  induction l generalizing acc with
  | nil => simp
  | cons p ps ih =>
    cases hp : dynCastCircle p with
    | some cp => simp [List.filterMap_cons, hp, ih]
    | none => simp [List.filterMap_cons, hp, ih]

/-- The filter loop computes `List.filterMap dynCastCircle`. -/
lemma filterCircles_eq_filterMap (l : List CurvePtr) :
    filterCircles l = l.filterMap dynCastCircle := by
  simpa using filterCircles_loop l []

/-- Object identities surviving the filter form a subsequence of the input
identities: the filter preserves relative order. -/
lemma filterMap_oid_sublist (l : List CurvePtr) :
    ((l.filterMap dynCastCircle).map CirclePtr.oid).Sublist (l.map CurvePtr.oid) := by
  induction l with
  | nil => simp
  | cons p ps ih =>
    cases hv : p.val with
    | circle c =>
      have hp : dynCastCircle p = some ⟨p.oid, c⟩ := by simp [dynCastCircle, hv]
      simpa [List.filterMap_cons, hp] using ih.cons₂ p.oid
    | ellipse e =>
      have hp : dynCastCircle p = none := by simp [dynCastCircle, hv]
      simpa [List.filterMap_cons, hp] using ih.cons p.oid
    | helix hx =>
      have hp : dynCastCircle p = none := by simp [dynCastCircle, hv]
      simpa [List.filterMap_cons, hp] using ih.cons p.oid

/-- Unfolding the summation loop with an arbitrary accumulator. -/
lemma sumRadii_loop (l : List CirclePtr) (a : ℝ) :
    l.foldl (fun sum c => sum + c.circle.getRadius) a
      = a + (l.map fun c => c.circle.getRadius).sum := by
  induction l generalizing a with
  | nil => simp
  | cons x xs ih => simp [ih]; ring

/-- The summation loop computes the sum of the mapped radii. -/
lemma sumRadii_eq_sum (l : List CirclePtr) :
    sumRadii l = (l.map fun c => c.circle.getRadius).sum := by
  simpa [sumRadii] using sumRadii_loop l 0

/-- Any admissible `std::sort` output has its radii sorted non-decreasingly,
at every pair of positions (not merely adjacent ones). -/
lemma stdSortResult_sorted_radii {l l' : List CirclePtr} (h : stdSortResult l l') :
    List.Sorted (· ≤ ·) (l'.map fun c => c.circle.getRadius) := by
  have hc : (l'.map fun c => c.circle.getRadius).Chain' (· ≤ ·) := by
    rw [List.chain'_map]
    exact h.2.imp fun a b hab => not_lt.mp hab
  exact List.chain'_iff_pairwise.mp hc

/-- Any admissible `std::sort` output has the same sum of radii as its input. -/
lemma stdSortResult_sum_eq {l l' : List CirclePtr} (h : stdSortResult l l') :
    sumRadii l' = sumRadii l := by
  rw [sumRadii_eq_sum, sumRadii_eq_sum]
  exact (h.1.map fun c => c.circle.getRadius).sum_eq


/-! ### Claim theorems -/

/-- Claim C3: any radius parameter that is not positive is silently replaced
by `1.0` in the `Circle`, `Ellipse` (each axis independently) and `Helix`
constructors, so `Circle(r)` with `r ≤ 0` is identical to `Circle(1.0)`;
positive radii are stored unchanged; the `Helix` pitch parameter is stored
unvalidated and unaltered for every value. Construction is a total function
(it never signals an error). -/
theorem construction_clamps_nonpositive_radii (radius rx ry pitch : ℝ) :
    (radius ≤ 0 → Circle.make radius = Circle.make 1) ∧
    (0 < radius → (Circle.make radius).r = radius) ∧
    (rx ≤ 0 → (Ellipse.make rx ry).rx = 1) ∧
    (0 < rx → (Ellipse.make rx ry).rx = rx) ∧
    (ry ≤ 0 → (Ellipse.make rx ry).ry = 1) ∧
    (0 < ry → (Ellipse.make rx ry).ry = ry) ∧
    (radius ≤ 0 → (Helix.make radius pitch).r = 1) ∧
    (0 < radius → (Helix.make radius pitch).r = radius) ∧
    (Helix.make radius pitch).step = pitch := by
  refine ⟨?_, ?_, ?_, ?_, ?_, ?_, ?_, ?_, rfl⟩ <;>
    intro h <;>
    simp [Circle.make, Ellipse.make, Helix.make] <;>
    intro hlt <;>
    linarith

/-- Witness for C3 at concrete inputs `radius = -2`, `rx = -1`, `ry = 3`,
`pitch = -5`. -/
theorem construction_clamps_nonpositive_radii_witness :
    Circle.make (-2) = Circle.make 1 ∧
    (Ellipse.make (-1) 3).rx = 1 ∧
    (Ellipse.make (-1) 3).ry = 3 ∧
    (Helix.make (-2) (-5)).r = 1 ∧
    (Helix.make (-2) (-5)).step = -5 := by
  obtain ⟨h1, _, h3, _, _, h6, h7, _, h9⟩ :=
    construction_clamps_nonpositive_radii (-2) (-1) 3 (-5)
  exact ⟨h1 (by norm_num), h3 (by norm_num), h6 (by norm_num),
    h7 (by norm_num), h9⟩

/-- Claim C4: for every `r > 0` and every real `t`, `Circle(r).getPoint t`
is `(r cos t, r sin t, 0)` and `Circle(r).getDerivative t` is
`(-r sin t, r cos t, 0)`; in particular the point at `t = 0` is `(r, 0, 0)`
and the derivative at `t = 0` is `(0, r, 0)`. -/
theorem circle_point_and_tangent (r : ℝ) (hr : 0 < r) :
    (∀ t, (Circle.make r).getPoint t = ⟨r * Real.cos t, r * Real.sin t, 0⟩ ∧
      (Circle.make r).getDerivative t = ⟨-r * Real.sin t, r * Real.cos t, 0⟩) ∧
    (Circle.make r).getPoint 0 = ⟨r, 0, 0⟩ ∧
    (Circle.make r).getDerivative 0 = ⟨0, r, 0⟩ := by
  have hm : (Circle.make r).r = r := if_pos hr
  refine ⟨fun t => ⟨?_, ?_⟩, ?_, ?_⟩ <;>
    simp [Circle.getPoint, Circle.getDerivative, hm]

/-- Witness for C4 at `r = 2`, evaluated at `t = 0`. -/
theorem circle_point_and_tangent_witness :
    (Circle.make 2).getPoint 0 = ⟨2, 0, 0⟩ ∧
    (Circle.make 2).getDerivative 0 = ⟨0, 2, 0⟩ :=
  ⟨(circle_point_and_tangent 2 (by norm_num)).2.1,
   (circle_point_and_tangent 2 (by norm_num)).2.2⟩

/-- Claim C5: for every radius argument `r`, every `pitch` and every real
`t`, one full turn of the helix advances the `z` coordinate by exactly the
pitch: `Helix(r, pitch).getPoint (t + 2π) |>.z - Helix(r, pitch).getPoint t |>.z = pitch`
(double arithmetic embedded as exact real arithmetic). -/
theorem helix_full_turn_advances_z_by_pitch (r pitch t : ℝ) :
    ((Helix.make r pitch).getPoint (t + 2 * Real.pi)).z
      - ((Helix.make r pitch).getPoint t).z = pitch := by
  simp only [Helix.make, Helix.getPoint]
  have hpi : (2 : ℝ) * Real.pi ≠ 0 := by positivity
  field_simp
  ring

/-- Claim C8: for every constructed circle (any radius argument, clamped or
not) and every real `t`, the position and derivative vectors are orthogonal
(dot product zero over exact real arithmetic), and each has Euclidean norm
equal to the stored radius returned by `getRadius`. -/
theorem circle_point_orthogonal_derivative (radius t : ℝ) :
    ((Circle.make radius).getPoint t).dot ((Circle.make radius).getDerivative t) = 0 ∧
    ((Circle.make radius).getPoint t).norm = (Circle.make radius).getRadius ∧
    ((Circle.make radius).getDerivative t).norm = (Circle.make radius).getRadius := by
  set r : ℝ := (Circle.make radius).r with hr
  have hrpos : 0 < r := Circle.make_r_pos radius
  refine ⟨?_, ?_, ?_⟩
  · simp only [Circle.getPoint, Circle.getDerivative, Vec3.dot]
    ring
  · simp only [Circle.getPoint, Vec3.norm, Vec3.dot, Circle.getRadius]
    have hsq : r * Real.cos t * (r * Real.cos t) + r * Real.sin t * (r * Real.sin t)
        + 0 * 0 = r ^ 2 := by
      have := Real.sin_sq_add_cos_sq t
      nlinarith [this]
    rw [hsq, Real.sqrt_sq hrpos.le]
  · simp only [Circle.getDerivative, Vec3.norm, Vec3.dot, Circle.getRadius]
    have hsq : -r * Real.sin t * (-r * Real.sin t) + r * Real.cos t * (r * Real.cos t)
        + 0 * 0 = r ^ 2 := by
      have := Real.sin_sq_add_cos_sq t
      nlinarith [this]
    rw [hsq, Real.sqrt_sq hrpos.le]

/-- Claim C10: a zero-pitch helix coincides with the circle of the same
radius argument (including non-positive arguments, where both constructors
clamp to `1.0`): point and derivative agree at every real `t`. -/
theorem zero_pitch_helix_is_circle (radius t : ℝ) :
    (Helix.make radius 0).getPoint t = (Circle.make radius).getPoint t ∧
    (Helix.make radius 0).getDerivative t = (Circle.make radius).getDerivative t := by
  constructor <;>
    simp [Helix.make, Helix.getPoint, Helix.getDerivative,
      Circle.make, Circle.getPoint, Circle.getDerivative]


/-- Claim C2: the filter step produces exactly the elements whose runtime
variant is `Circle` (no `Ellipse` or `Helix` gets in, no `Circle` is
omitted), preserving their relative order from the original sequence: the
loop equals `List.filterMap dynCastCircle`, the surviving object identities
form a subsequence of the input identities, and the five-element example
`[Circle(3), Ellipse(1,2), Circle(1), Helix(2,1), Circle(2)]` filters to
`[Circle(3), Circle(1), Circle(2)]`. -/
theorem filter_keeps_exactly_circles_in_order :
    (∀ curves : List CurvePtr, filterCircles curves = curves.filterMap dynCastCircle) ∧
    (∀ curves : List CurvePtr,
      ((filterCircles curves).map CirclePtr.oid).Sublist (curves.map CurvePtr.oid)) ∧
    filterCircles
        [⟨0, .circle (Circle.make 3)⟩, ⟨1, .ellipse (Ellipse.make 1 2)⟩,
         ⟨2, .circle (Circle.make 1)⟩, ⟨3, .helix (Helix.make 2 1)⟩,
         ⟨4, .circle (Circle.make 2)⟩]
      = [⟨0, Circle.make 3⟩, ⟨2, Circle.make 1⟩, ⟨4, Circle.make 2⟩] := by
  refine ⟨filterCircles_eq_filterMap, fun curves => ?_, rfl⟩
  rw [filterCircles_eq_filterMap]
  exact filterMap_oid_sublist curves

/-- Claim C7: on any input sequence containing zero `Circle` instances the
filter yields the empty sequence, sorting the empty sequence can only yield
the empty sequence, and the sum of radii over the empty sequence is exactly
`0.0` (all three operations are total functions or total relations and
cannot fail). -/
theorem empty_filter_zero_sum (curves : List CurvePtr)
    (hnone : ∀ p ∈ curves, ∀ c, p.val ≠ Curve.circle c) :
    filterCircles curves = [] ∧
    (∀ l', stdSortResult [] l' → l' = []) ∧
    sumRadii [] = 0 := by
  refine ⟨?_, fun l' hl' => hl'.1.eq_nil, by simp [sumRadii]⟩
  rw [filterCircles_eq_filterMap, List.filterMap_eq_nil_iff]
  intro p hp
  cases hv : p.val with
  | circle c => exact absurd hv (hnone p hp c)
  | ellipse e => simp [dynCastCircle, hv]
  | helix hx => simp [dynCastCircle, hv]

/-- Witness for C7 on the circle-free input
`[Ellipse(1,2), Helix(2,1)]`. -/
theorem empty_filter_zero_sum_witness :
    filterCircles
        [⟨0, .ellipse (Ellipse.make 1 2)⟩, ⟨1, .helix (Helix.make 2 1)⟩] = [] := by
  refine (empty_filter_zero_sum _ ?_).1
  intro p hp c
  simp only [List.mem_cons, List.not_mem_nil, or_false] at hp
  rcases hp with rfl | rfl <;> simp

/-- Claim C1, corrected: the program sorts with `std::sort`, which does not
guarantee stability.  Counterexample to the claim as stated: for the
filtered sequence `[Circle(2)_A, Circle(2)_B]` (equal radii, distinct
object identities `0` and `1`), the reversed sequence `[B, A]` is also an
admissible result of `std::sort`, and it differs from `[A, B]`, so equal
radii are not guaranteed to keep their relative order. -/
theorem sort_stability_counterexample :
    stdSortResult [⟨0, Circle.make 2⟩, ⟨1, Circle.make 2⟩]
        [⟨1, Circle.make 2⟩, ⟨0, Circle.make 2⟩] ∧
    (⟨0, Circle.make 2⟩ : CirclePtr).circle.getRadius
      = (⟨1, Circle.make 2⟩ : CirclePtr).circle.getRadius ∧
    ([⟨1, Circle.make 2⟩, ⟨0, Circle.make 2⟩] : List CirclePtr)
      ≠ [⟨0, Circle.make 2⟩, ⟨1, Circle.make 2⟩] := by
  refine ⟨⟨List.Perm.swap _ _ _, ?_⟩, rfl, ?_⟩
  · exact List.chain'_cons.mpr ⟨lt_irrefl _, List.chain'_singleton _⟩
  · simp

/-- Claim C1, amended part: every admissible result of the radius sort has
its radii in non-decreasing order at every pair of positions and is a
permutation of the filtered sequence; the relative order of equal-radius
circles is not guaranteed. -/
theorem sort_nondecreasing_radii (l l' : List CirclePtr) (h : stdSortResult l l') :
    List.Sorted (· ≤ ·) (l'.map fun c => c.circle.getRadius) ∧ l'.Perm l :=
  ⟨stdSortResult_sorted_radii h, h.1⟩

/-- Witness for the amended C1 on the singleton input `[Circle(2)]`. -/
theorem sort_nondecreasing_radii_witness :
    List.Sorted (· ≤ ·)
      (([(⟨0, Circle.make 2⟩ : CirclePtr)]).map fun c => c.circle.getRadius) :=
  (sort_nondecreasing_radii _ _ ⟨List.Perm.refl _, List.chain'_singleton _⟩).1

/-- Claim C6, corrected: re-sorting an already-sorted sequence is not
guaranteed to reproduce the same sequence of circle objects.
Counterexample: `[Circle(2)_A, Circle(2)_B]` is already sorted, yet the
reversed sequence `[B, A]` is also an admissible re-sort result and differs
from it — while the sum of radii is nevertheless unchanged. -/
theorem resort_same_order_counterexample :
    List.Chain' (fun a b => ¬ radiusLt b a)
        [(⟨0, Circle.make 2⟩ : CirclePtr), ⟨1, Circle.make 2⟩] ∧
    stdSortResult [(⟨0, Circle.make 2⟩ : CirclePtr), ⟨1, Circle.make 2⟩]
        [⟨1, Circle.make 2⟩, ⟨0, Circle.make 2⟩] ∧
    ([(⟨1, Circle.make 2⟩ : CirclePtr), ⟨0, Circle.make 2⟩])
      ≠ [⟨0, Circle.make 2⟩, ⟨1, Circle.make 2⟩] ∧
    sumRadii [(⟨1, Circle.make 2⟩ : CirclePtr), ⟨0, Circle.make 2⟩]
      = sumRadii [(⟨0, Circle.make 2⟩ : CirclePtr), ⟨1, Circle.make 2⟩] := by
  have hsort : stdSortResult [(⟨0, Circle.make 2⟩ : CirclePtr), ⟨1, Circle.make 2⟩]
      [⟨1, Circle.make 2⟩, ⟨0, Circle.make 2⟩] :=
    ⟨List.Perm.swap _ _ _,
     List.chain'_cons.mpr ⟨lt_irrefl _, List.chain'_singleton _⟩⟩
  refine ⟨?_, hsort, ?_, stdSortResult_sum_eq hsort⟩
  · exact List.chain'_cons.mpr ⟨lt_irrefl _, List.chain'_singleton _⟩
  · simp

/-- Claim C6, amended part: the sum of radii is invariant under sorting —
it agrees before the sort, after the sort, and after re-sorting the sorted
sequence — and re-sorting an already-sorted sequence reproduces the same
sequence of radii (hence the same reported values in the same order), even
though equal-radius objects may swap places. -/
theorem sum_invariant_under_sort (l l' l'' : List CirclePtr)
    (h1 : stdSortResult l l') (h2 : stdSortResult l' l'') :
    sumRadii l' = sumRadii l ∧
    sumRadii l'' = sumRadii l ∧
    (l''.map fun c => c.circle.getRadius) = (l'.map fun c => c.circle.getRadius) := by
  refine ⟨stdSortResult_sum_eq h1,
    (stdSortResult_sum_eq h2).trans (stdSortResult_sum_eq h1), ?_⟩
  exact List.eq_of_perm_of_sorted (h2.1.map _)
    (stdSortResult_sorted_radii h2) (stdSortResult_sorted_radii h1)

/-- Witness for the amended C6 on the singleton input `[Circle(2)]`. -/
theorem sum_invariant_under_sort_witness :
    sumRadii [(⟨0, Circle.make 2⟩ : CirclePtr)]
      = sumRadii [(⟨0, Circle.make 2⟩ : CirclePtr)] :=
  (sum_invariant_under_sort _ _ _
    ⟨List.Perm.refl _, List.chain'_singleton _⟩
    ⟨List.Perm.refl _, List.chain'_singleton _⟩).1

/-- Claim C9: every admissible sort result is a permutation of the filtered
sequence: same length, same multiset of circle elements, and same multiset
of radii — nothing is created, duplicated or dropped. -/
theorem sort_is_permutation (l l' : List CirclePtr) (h : stdSortResult l l') :
    l'.length = l.length ∧
    (l' : Multiset CirclePtr) = (l : Multiset CirclePtr) ∧
    ((l'.map fun c => c.circle.getRadius : List ℝ) : Multiset ℝ)
      = ((l.map fun c => c.circle.getRadius : List ℝ) : Multiset ℝ) :=
  ⟨h.1.length_eq, Multiset.coe_eq_coe.mpr h.1, Multiset.coe_eq_coe.mpr (h.1.map _)⟩

/-- Witness for C9 on the singleton input `[Circle(2)]`. -/
theorem sort_is_permutation_witness :
    ([(⟨0, Circle.make 2⟩ : CirclePtr)] : List CirclePtr).length
      = ([(⟨0, Circle.make 2⟩ : CirclePtr)] : List CirclePtr).length :=
  (sort_is_permutation _ _ ⟨List.Perm.refl _, List.chain'_singleton _⟩).1

end

end Curves3D
